import Mathlib

/-!
Verification of the typstfmt formatting core (`src/lib/src/lib.rs`).

The file embeds the recursive bottom-up formatter: the node-kind dispatch
(`visit`), the per-construct formatters (`format_default`,
`format_bin_left_assoc`, `format_bin_left_assoc_tight`, `format_named_args`,
`format_let_binding`) and the shared context. The modules `config`, `context`,
`utils`, `args`, `code_blocks` and `content_blocks` are referenced by the
library root but their sources are not part of this tree; the corresponding
definitions below are modelled from the specification (sections 4.1, 4.4,
4.6 and 4.8) and are marked as such in their doc comments.

Diagnostics (the `warn!` call in `format_bin_left_assoc`) are modelled
explicitly: formatters that can emit a warning return the number of
warning-level diagnostics emitted alongside the rendered string.
-/

namespace Typstfmt

/-- Node kinds of the external parser's concrete syntax tree, restricted to
the kinds the formatting core distinguishes (every other kind behaves like
`Text` and falls to the default formatter). -/
inductive SKind where
  | Binary
  | Named
  | Keyed
  | CodeBlock
  | ContentBlock
  | Args
  | Params
  | Dict
  | Array
  | Destructuring
  | Parenthesized
  | LetBinding
  | Space
  | Colon
  | Eq
  | Comma
  | Plus
  | Minus
  | Star
  | Slash
  | And
  | Or
  | Ident
  | Text
  | Markup
  | Int
  | Let
  deriving DecidableEq, Repr

/-- Operator-token predicate: mirrors the guard
`BinOp::from_kind(x).is_some()` of the external grammar, which recognizes
arithmetic, boolean and assignment tokens as binary operators. -/
def is_bin_op : SKind → Bool
  | SKind.Plus => true
  | SKind.Minus => true
  | SKind.Star => true
  | SKind.Slash => true
  | SKind.And => true
  | SKind.Or => true
  | SKind.Eq => true
  | _ => false

/-- A CST node: a kind, the raw source slice (non-empty only for leaves) and
the ordered children. -/
inductive Node where
  | mk : SKind → String → List Node → Node

def Node.kind : Node → SKind
  | Node.mk k _ _ => k

def Node.text : Node → String
  | Node.mk _ t _ => t

def Node.children : Node → List Node
  | Node.mk _ _ cs => cs

/-- Modelled from the spec: the `config` module is not in the tree. Section 6
recognizes `max_line_length` (integer column budget) and an indent unit. -/
structure Config where
  max_line_length : Nat
  indent_width : Nat
  deriving DecidableEq, Repr

/-- Modelled from the spec: the `context` module is not in the tree. Section 3
describes the context as immutable configuration plus a mutable indent-depth
counter. -/
structure Ctx where
  config : Config
  indent : Nat
  deriving DecidableEq, Repr

/-- One step of whitespace normalization over a character list, carrying the
two previously emitted characters: a space directly after a space is dropped
(runs of two or more spaces collapse to one) and a newline directly after two
newlines is dropped (runs of three or more newlines collapse to two). -/
def collapseChars : Option Char → Option Char → List Char → List Char
  | _, _, [] => []
  | p2, p1, c :: cs =>
    if c = ' ' ∧ p1 = some ' ' then
      collapseChars p2 p1 cs
    else if c = '\n' ∧ p1 = some '\n' ∧ p2 = some '\n' then
      collapseChars p2 p1 cs
    else
      c :: collapseChars p1 (some c) cs

/-- Modelled from the spec: section 4.1 normalized-append collapses space
runs to one and newline runs of three or more to two before appending. -/
def normalize (s : String) : String :=
  String.mk (collapseChars none none s.data)

/-- Modelled from the spec: `Ctx::push_in`, the normalized-append primitive
of section 4.1. -/
def push_in (s : String) (res : String) : String :=
  res ++ normalize s

/-- Modelled from the spec: `Ctx::push_raw_in`, the raw-append primitive of
section 4.1 (appends an already-formatted child string unmodified). -/
def push_raw_in (s : String) (res : String) : String :=
  res ++ s

/-- Longest-line helper: current line length, best so far, remaining input. -/
def maxLineAux : Nat → Nat → List Char → Nat
  | cur, best, [] => Nat.max best cur
  | cur, best, c :: cs =>
    if c = '\n' then maxLineAux 0 (Nat.max best cur) cs
    else maxLineAux (cur + 1) best cs

/-- Modelled from the spec: `utils::max_line_length` is not in the tree;
section 4.4 describes it as the longest segment between newline boundaries. -/
def max_line_length (s : String) : Nat :=
  maxLineAux 0 0 s.data

/-- `format_default` (lib.rs lines 74-87): normalized-append the node's own
text, then raw-append each already-formatted child string in order. -/
def format_default (node : Node) (children : List String) (_ctx : Ctx) : String :=
  children.foldl (fun r s => push_raw_in s r) (push_in node.text "")

/-- Loop body of `format_bin_left_assoc_tight` (lib.rs lines 136-148) over
the zip of formatted child strings with the syntax children. -/
def binTightGo : List (String × Node) → String → String
  | [], res => res
  | (s, n) :: rest, res =>
    if is_bin_op n.kind then
      binTightGo rest (push_in " " (push_raw_in s (push_in " " res)))
    else if n.kind = SKind.Space then
      binTightGo rest res
    else
      binTightGo rest (push_raw_in s res)

/-- `format_bin_left_assoc_tight` (lib.rs lines 130-150): operator tokens get
one space on each side, Space trivia is dropped, everything else is
raw-appended. -/
def format_bin_left_assoc_tight (parent : Node) (children : List String)
    (_ctx : Ctx) : String :=
  binTightGo (children.zip parent.children) ""

/-- Loop body of `format_bin_left_assoc_breaking` (lib.rs lines 113-125). -/
def binBreakGo (ctx : Ctx) : List (String × Node) → String → String
  | [], res => res
  | (s, n) :: rest, res =>
    if is_bin_op n.kind then
      binBreakGo ctx rest
        (push_raw_in " "
          (push_raw_in (String.join ((s.splitOn "\n").map
              (fun l => String.mk (List.replicate (ctx.indent * ctx.config.indent_width) ' ') ++ l)))
            (push_in "\n" res)))
    else if n.kind = SKind.Space then
      binBreakGo ctx rest res
    else
      binBreakGo ctx rest (push_raw_in s res)

/-- `format_bin_left_assoc_breaking` (lib.rs lines 107-127): the reserved,
currently unused breaking layout. -/
def format_bin_left_assoc_breaking (parent : Node) (children : List String)
    (ctx : Ctx) : String :=
  binBreakGo ctx (children.zip parent.children) ""

/-- `format_bin_left_assoc` (lib.rs lines 90-104): always compute the tight
rendering; when its longest line is greater-or-equal to `max_line_length`,
emit one warning-level diagnostic (the call to the breaking layout is
commented out in the source) and return the tight rendering unchanged.
The second component counts the warnings emitted. -/
def format_bin_left_assoc (parent : Node) (children : List String)
    (ctx : Ctx) : String × Nat :=
  let res := format_bin_left_assoc_tight parent children ctx
  if max_line_length res ≥ ctx.config.max_line_length then
    (res, 1)
  else
    (res, 0)

/-- Loop body of `format_named_args` (lib.rs lines 155-163). -/
def namedGo : List (String × Node) → String → String
  | [], res => res
  | (s, n) :: rest, res =>
    if n.kind = SKind.Colon then
      namedGo rest (res ++ ": ")
    else if n.kind = SKind.Space then
      namedGo rest res
    else
      namedGo rest (push_raw_in s res)

/-- `format_named_args` (lib.rs lines 153-165): the Colon child is replaced
by the literal `": "`, Space trivia is dropped, everything else is
raw-appended. -/
def format_named_args (parent : Node) (children : List String)
    (_ctx : Ctx) : String :=
  namedGo (children.zip parent.children) ""

/-- Loop body of `format_let_binding` (lib.rs lines 174-186). -/
def letGo : List (String × Node) → String → String
  | [], res => res
  | (s, n) :: rest, res =>
    if n.kind = SKind.Eq then
      letGo rest (push_in " " (push_in s (push_in " " res)))
    else if n.kind = SKind.Space then
      letGo rest (push_in s res)
    else
      letGo rest (push_raw_in s res)

/-- `format_let_binding` (lib.rs lines 168-188): the Eq token gets one space
on each side, Space children are appended through normalized-append
(`push_in`), everything else is raw-appended. -/
def format_let_binding (parent : Node) (children : List String)
    (_ctx : Ctx) : String :=
  letGo (children.zip parent.children) ""

/-- Single-line rendering of a delimited collection: Space trivia dropped,
each comma rendered as `", "`, everything else raw-appended. -/
def argsSingleGo : List (String × Node) → String → String
  | [], res => res
  | (s, n) :: rest, res =>
    if n.kind = SKind.Comma then
      argsSingleGo rest (res ++ ", ")
    else if n.kind = SKind.Space then
      argsSingleGo rest res
    else
      argsSingleGo rest (push_raw_in s res)

/-- One-item-per-line rendering of a delimited collection: Space trivia
dropped, each comma followed by a line break instead of a space. -/
def argsMultiGo : List (String × Node) → String → String
  | [], res => res
  | (s, n) :: rest, res =>
    if n.kind = SKind.Comma then
      argsMultiGo rest (res ++ ",\n")
    else if n.kind = SKind.Space then
      argsMultiGo rest res
    else
      argsMultiGo rest (push_raw_in s res)

/-- Modelled from the spec: `args::format_args` is not in the tree. Section
4.6: normalize inter-element spacing, choose the single-line layout when the
rendered width fits `max_line_length`, with an inclusive comparison at the
boundary (a rendering exactly equal to the limit counts as fitting);
otherwise use the one-item-per-line layout. -/
def format_args (parent : Node) (children : List String) (ctx : Ctx) : String :=
  let single := argsSingleGo (children.zip parent.children) ""
  if max_line_length single ≤ ctx.config.max_line_length then single
  else argsMultiGo (children.zip parent.children) ""

/-- Modelled from the spec: the `code_blocks` module is not in the tree.
Section 4.8 leaves the exact wrapping heuristic open; following section 9 we
adopt greedy single-line-if-fits, else one item per line, never reordering
children. -/
def format_code_blocks (parent : Node) (children : List String)
    (ctx : Ctx) : String :=
  format_args parent children ctx

/-- Modelled from the spec: the `content_blocks` module is not in the tree;
same choice as for code blocks (section 4.8). -/
def format_content_blocks (parent : Node) (children : List String)
    (ctx : Ctx) : String :=
  format_args parent children ctx

/-- Per-kind dispatch of `visit` (lib.rs lines 46-56), applied after the
children are formatted. The second component counts warnings emitted. -/
def dispatch (node : Node) (childStrs : List String) (ctx : Ctx) : String × Nat :=
  match node.kind with
  | SKind.Binary => format_bin_left_assoc node childStrs ctx
  | SKind.Named => (format_named_args node childStrs ctx, 0)
  | SKind.Keyed => (format_named_args node childStrs ctx, 0)
  | SKind.CodeBlock => (format_code_blocks node childStrs ctx, 0)
  | SKind.ContentBlock => (format_content_blocks node childStrs ctx, 0)
  | SKind.Args => (format_args node childStrs ctx, 0)
  | SKind.Params => (format_args node childStrs ctx, 0)
  | SKind.Dict => (format_args node childStrs ctx, 0)
  | SKind.Array => (format_args node childStrs ctx, 0)
  | SKind.Destructuring => (format_args node childStrs ctx, 0)
  | SKind.Parenthesized => (format_args node childStrs ctx, 0)
  | SKind.LetBinding => (format_let_binding node childStrs ctx, 0)
  | _ => (format_default node childStrs ctx, 0)

mutual

/-- `visit` (lib.rs lines 40-63): format every child bottom-up, left to
right, then dispatch on the node's kind. Returns the rendering and the
number of warning-level diagnostics emitted. -/
def visit : Node → Ctx → String × Nat
  | Node.mk k t cs, ctx =>
    let (childStrs, w) := visitList cs ctx
    let (res, w2) := dispatch (Node.mk k t cs) childStrs ctx
    (res, w + w2)

/-- Child loop of `visit` (lib.rs lines 42-45). -/
def visitList : List Node → Ctx → List String × Nat
  | [], _ => ([], 0)
  | n :: ns, ctx =>
    let (s, w1) := visit n ctx
    let (rest, w2) := visitList ns ctx
    (s :: rest, w1 + w2)

end

/-! ### Specification helpers -/

/-- Concatenation of the images of a list under a string-valued function,
in order. -/
def concatMap (f : α → String) : List α → String
  | [] => ""
  | a :: l => f a ++ concatMap f l

/-- Per-child contribution of the tight binary rendering: operator tokens are
surrounded by exactly one space on each side, Space trivia vanishes, every
other child string is kept verbatim. -/
def binTightContrib (p : String × Node) : String :=
  if is_bin_op p.2.kind then " " ++ p.1 ++ " "
  else if p.2.kind = SKind.Space then ""
  else p.1

/-- Per-child contribution of the named/keyed rendering: a Colon child is
replaced by the literal `": "`, Space trivia vanishes, every other child
string is kept verbatim. -/
def namedContrib (p : String × Node) : String :=
  if p.2.kind = SKind.Colon then ": "
  else if p.2.kind = SKind.Space then ""
  else p.1

/-- Per-child contribution of the let-binding rendering: the Eq child is
surrounded by one space on each side, Space children pass through
normalized-append, every other child string is kept verbatim. -/
def letContrib (p : String × Node) : String :=
  if p.2.kind = SKind.Eq then " " ++ normalize p.1 ++ " "
  else if p.2.kind = SKind.Space then normalize p.1
  else p.1

lemma normalize_one_space : normalize " " = " " := rfl

lemma binTightGo_eq (ps : List (String × Node)) (res : String) :
    binTightGo ps res = res ++ concatMap binTightContrib ps := by
  induction ps generalizing res with
  | nil => simp [binTightGo, concatMap]
  | cons p rest ih =>
    obtain ⟨s, n⟩ := p
    by_cases hb : is_bin_op n.kind
    · simp [binTightGo, concatMap, binTightContrib, hb, ih, push_in, push_raw_in,
        normalize_one_space, String.append_assoc]
    · by_cases hs : n.kind = SKind.Space
      · simp [binTightGo, concatMap, binTightContrib, hb, hs, ih, is_bin_op]
      · simp [binTightGo, concatMap, binTightContrib, hb, hs, ih, push_raw_in,
          String.append_assoc]

lemma namedGo_eq (ps : List (String × Node)) (res : String) :
    namedGo ps res = res ++ concatMap namedContrib ps := by
  induction ps generalizing res with
  | nil => simp [namedGo, concatMap]
  | cons p rest ih =>
    obtain ⟨s, n⟩ := p
    by_cases hc : n.kind = SKind.Colon
    · simp [namedGo, concatMap, namedContrib, hc, ih, String.append_assoc]
    · by_cases hs : n.kind = SKind.Space
      · simp [namedGo, concatMap, namedContrib, hc, hs, ih]
      · simp [namedGo, concatMap, namedContrib, hc, hs, ih, push_raw_in,
          String.append_assoc]

lemma letGo_eq (ps : List (String × Node)) (res : String) :
    letGo ps res = res ++ concatMap letContrib ps := by
  induction ps generalizing res with
  | nil => simp [letGo, concatMap]
  | cons p rest ih =>
    obtain ⟨s, n⟩ := p
    by_cases he : n.kind = SKind.Eq
    · simp [letGo, concatMap, letContrib, he, ih, push_in,
        normalize_one_space, String.append_assoc]
    · by_cases hs : n.kind = SKind.Space
      · simp [letGo, concatMap, letContrib, he, hs, ih, push_in, String.append_assoc]
      · simp [letGo, concatMap, letContrib, he, hs, ih, push_raw_in,
          String.append_assoc]

lemma rawFold_eq (cs : List String) (res : String) :
    cs.foldl (fun r s => push_raw_in s r) res = res ++ concatMap id cs := by
  induction cs generalizing res with
  | nil => simp [concatMap]
  | cons s rest ih =>
    rw [List.foldl_cons, ih]
    simp [push_raw_in, concatMap, String.append_assoc]

lemma collapseChars_cons (p2 p1 : Option Char) (c : Char) (cs : List Char) :
    collapseChars p2 p1 (c :: cs) =
      if c = ' ' ∧ p1 = some ' ' then collapseChars p2 p1 cs
      else if c = '\n' ∧ p1 = some '\n' ∧ p2 = some '\n' then collapseChars p2 p1 cs
      else c :: collapseChars p1 (some c) cs := rfl

lemma collapseChars_skip_spaces (p2 : Option Char) (m : Nat) (rest : List Char) :
    collapseChars p2 (some ' ') (List.replicate m ' ' ++ rest) =
      collapseChars p2 (some ' ') rest := by
  induction m with
  | zero => simp
  | succ m ih =>
    rw [List.replicate_succ, List.cons_append, collapseChars_cons,
      if_pos ⟨rfl, rfl⟩]
    exact ih

lemma collapseChars_space_run (p2 p1 : Option Char) (n : Nat) (rest : List Char)
    (hn : 1 ≤ n) (hp : p1 ≠ some ' ') :
    collapseChars p2 p1 (List.replicate n ' ' ++ rest) =
      ' ' :: collapseChars p1 (some ' ') rest := by
  obtain ⟨m, rfl⟩ : ∃ m, n = m + 1 := ⟨n - 1, (Nat.succ_pred_eq_of_pos hn).symm⟩
  rw [List.replicate_succ, List.cons_append, collapseChars_cons,
    if_neg (fun h => hp h.2),
    if_neg (fun h => absurd h.1 (by decide)),
    collapseChars_skip_spaces]

lemma collapseChars_skip_newlines (m : Nat) (rest : List Char) :
    collapseChars (some '\n') (some '\n') (List.replicate m '\n' ++ rest) =
      collapseChars (some '\n') (some '\n') rest := by
  induction m with
  | zero => simp
  | succ m ih =>
    rw [List.replicate_succ, List.cons_append, collapseChars_cons,
      if_neg (fun h => absurd h.1 (by decide)), if_pos ⟨rfl, rfl, rfl⟩]
    exact ih

lemma collapseChars_newline_run (p2 p1 : Option Char) (n : Nat) (rest : List Char)
    (hn : 3 ≤ n) (hp : p1 ≠ some '\n') :
    collapseChars p2 p1 (List.replicate n '\n' ++ rest) =
      '\n' :: '\n' :: collapseChars (some '\n') (some '\n') rest := by
  obtain ⟨m, rfl⟩ : ∃ m, n = m + 3 := ⟨n - 3, by omega⟩
  have h3 : List.replicate (m + 3) '\n' = '\n' :: '\n' :: '\n' :: List.replicate m '\n' := by
    rw [Nat.add_comm m 3]
    simp [List.replicate_add]
  rw [h3, List.cons_append, List.cons_append, List.cons_append]
  rw [collapseChars_cons, if_neg (fun h => absurd h.1 (by decide)),
    if_neg (fun h => hp h.2.1)]
  rw [collapseChars_cons, if_neg (fun h => absurd h.1 (by decide)),
    if_neg (fun h => hp h.2.2)]
  rw [collapseChars_cons, if_neg (fun h => absurd h.1 (by decide)),
    if_pos ⟨rfl, rfl, rfl⟩]
  rw [collapseChars_skip_newlines]

/-- Kinds with a dedicated dispatch arm in `visit` (lib.rs lines 47-54). -/
def dispatchedKinds : List SKind :=
  [SKind.Binary, SKind.Named, SKind.Keyed, SKind.CodeBlock, SKind.ContentBlock,
   SKind.Args, SKind.Params, SKind.Dict, SKind.Array, SKind.Destructuring,
   SKind.Parenthesized, SKind.LetBinding]

lemma dispatch_default (n : Node) (cs : List String) (ctx : Ctx)
    (h : n.kind ∉ dispatchedKinds) :
    dispatch n cs ctx = (format_default n cs ctx, 0) := by
  cases hn : n.kind <;> simp_all [dispatch, dispatchedKinds]

/-- Pointwise agreement of two formatted-children lists at every position
whose syntax child is neither a Colon nor Space trivia. -/
def AgreeOffTrivia : List Node → List String → List String → Prop
  | n :: ns, s1 :: t1, s2 :: t2 =>
      (n.kind ≠ SKind.Colon → n.kind ≠ SKind.Space → s1 = s2) ∧
        AgreeOffTrivia ns t1 t2
  | _, _, _ => True

lemma concatMap_named_congr :
    ∀ (ns : List Node) (cs1 cs2 : List String),
      cs1.length = cs2.length →
      AgreeOffTrivia ns cs1 cs2 →
      concatMap namedContrib (cs1.zip ns) = concatMap namedContrib (cs2.zip ns) := by
  intro ns
  induction ns with
  | nil => intro cs1 cs2 _ _; simp [concatMap]
  | cons n ns ih =>
    intro cs1 cs2 hlen hag
    cases cs1 with
    | nil =>
      cases cs2 with
      | nil => simp [concatMap]
      | cons s2 t2 => simp at hlen
    | cons s1 t1 =>
      cases cs2 with
      | nil => simp at hlen
      | cons s2 t2 =>
        obtain ⟨h1, h2⟩ := hag
        rw [show (s1 :: t1).zip (n :: ns) = (s1, n) :: t1.zip ns from rfl,
          show (s2 :: t2).zip (n :: ns) = (s2, n) :: t2.zip ns from rfl]
        simp only [concatMap]
        rw [ih t1 t2 (by simpa using hlen) h2]
        congr 1
        unfold namedContrib
        by_cases hc : n.kind = SKind.Colon
        · simp [hc]
        · by_cases hs : n.kind = SKind.Space
          · simp [hc, hs]
          · simp [hc, hs, h1 hc hs]

/-! ### Claims -/

/-- Claim C2, corrected at the boundary, counterexample: a Binary node whose
tight rendering `"a + b"` has longest line exactly equal to
`max_line_length = 5`. The limit is not exceeded (the longest line is
less-or-equal to the limit), yet one warning-level diagnostic is emitted,
because the source check at lib.rs line 97 uses greater-or-equal. -/
theorem format_bin_left_assoc_warns_at_limit_cex :
    (format_bin_left_assoc
        (Node.mk SKind.Binary ""
          [Node.mk SKind.Ident "a" [], Node.mk SKind.Plus "+" [],
           Node.mk SKind.Ident "b" []])
        ["a", "+", "b"] ⟨⟨5, 2⟩, 0⟩).2 = 1 ∧
    max_line_length
        (format_bin_left_assoc
          (Node.mk SKind.Binary ""
            [Node.mk SKind.Ident "a" [], Node.mk SKind.Plus "+" [],
             Node.mk SKind.Ident "b" []])
          ["a", "+", "b"] ⟨⟨5, 2⟩, 0⟩).1 ≤
      (⟨⟨5, 2⟩, 0⟩ : Ctx).config.max_line_length :=
  ⟨rfl, by decide⟩

/-- Claim C2 as amended: for every Binary node, the binary-operator formatter
returns the tight rendering unchanged (it never applies the breaking layout
and never errors) and emits exactly one warning-level diagnostic precisely
when the tight rendering's longest line is greater-or-equal to
`max_line_length`; so strictly below the limit there is no diagnostic, but a
rendering exactly at the limit also triggers the warning. -/
theorem format_bin_left_assoc_overflow_policy :
    ∀ (parent : Node) (children : List String) (ctx : Ctx),
      (format_bin_left_assoc parent children ctx).1 =
        format_bin_left_assoc_tight parent children ctx ∧
      (format_bin_left_assoc parent children ctx).2 =
        (if ctx.config.max_line_length ≤
            max_line_length (format_bin_left_assoc_tight parent children ctx)
         then 1 else 0) := by
  intro parent children ctx
  by_cases h : ctx.config.max_line_length ≤
      max_line_length (format_bin_left_assoc_tight parent children ctx) <;>
    simp [format_bin_left_assoc, ge_iff_le, h]

/-- Claim C3: the tight rendering of a Binary node discards Space trivia,
surrounds every operator-token child with exactly one space on each side,
and raw-appends every other child's formatted string verbatim in order;
concretely, `a+b` renders as `a + b`. -/
theorem format_bin_left_assoc_tight_contract :
    (∀ (parent : Node) (children : List String) (ctx : Ctx),
        format_bin_left_assoc_tight parent children ctx =
          concatMap binTightContrib (children.zip parent.children)) ∧
    format_bin_left_assoc_tight
        (Node.mk SKind.Binary ""
          [Node.mk SKind.Ident "a" [], Node.mk SKind.Plus "+" [],
           Node.mk SKind.Ident "b" []])
        ["a", "+", "b"] ⟨⟨80, 2⟩, 0⟩ = "a + b" := by
  constructor
  · intro parent children ctx
    simpa [format_bin_left_assoc_tight] using
      binTightGo_eq (children.zip parent.children) ""
  · rfl

/-- Claim C4, corrected, counterexample: the let-binding formatter does not
preserve a Space child's string verbatim; it appends it through
normalized-append, which collapses the two-space string `"  "` to a single
space (lib.rs line 181 uses `push_in`, not `push_raw_in`). -/
theorem format_let_binding_space_not_verbatim_cex :
    format_let_binding (Node.mk SKind.LetBinding "" [Node.mk SKind.Space "  " []])
        ["  "] ⟨⟨80, 2⟩, 0⟩ = " " ∧
    (" " : String) ≠ "  " :=
  ⟨rfl, by decide⟩

/-- Claim C4 as amended: the let-binding formatter renders the Eq child with
exactly one space on each side, appends Space-trivia children through
normalized-append (collapsing space runs to one and newline runs of three or
more to two, hence verbatim exactly when the child string is already
normalized), and raw-appends all other children verbatim in order;
concretely, `let x=1` renders as `let x = 1`. -/
theorem format_let_binding_contract :
    (∀ (parent : Node) (children : List String) (ctx : Ctx),
        format_let_binding parent children ctx =
          concatMap letContrib (children.zip parent.children)) ∧
    format_let_binding
        (Node.mk SKind.LetBinding ""
          [Node.mk SKind.Let "let" [], Node.mk SKind.Space " " [],
           Node.mk SKind.Ident "x" [], Node.mk SKind.Eq "=" [],
           Node.mk SKind.Int "1" []])
        ["let", " ", "x", "=", "1"] ⟨⟨80, 2⟩, 0⟩ = "let x = 1" := by
  constructor
  · intro parent children ctx
    simpa [format_let_binding] using letGo_eq (children.zip parent.children) ""
  · rfl

/-- Claim C5: the named/keyed formatter discards Space trivia, renders each
Colon child as exactly the two characters `": "`, and raw-appends all other
children verbatim in order, with no dependence on the width budget;
concretely, the entry of `f(a:1)` renders as `a: 1`. -/
theorem format_named_args_contract :
    (∀ (parent : Node) (children : List String) (ctx : Ctx),
        format_named_args parent children ctx =
          concatMap namedContrib (children.zip parent.children)) ∧
    format_named_args
        (Node.mk SKind.Named ""
          [Node.mk SKind.Ident "a" [], Node.mk SKind.Colon ":" [],
           Node.mk SKind.Space " " [], Node.mk SKind.Int "1" []])
        ["a", ":", " ", "1"] ⟨⟨80, 2⟩, 0⟩ = "a: 1" := by
  constructor
  · intro parent children ctx
    simpa [format_named_args] using namedGo_eq (children.zip parent.children) ""
  · rfl

/-- Claim C6: dispatch in `visit` is total; every kind without a dedicated
dispatch arm falls to the default formatter, so formatting never fails on an
unrecognized kind. -/
theorem visit_dispatch_total_default :
    ∀ (k : SKind) (t : String) (cs : List Node) (ctx : Ctx),
      k ∉ dispatchedKinds →
      visit (Node.mk k t cs) ctx =
        (format_default (Node.mk k t cs) (visitList cs ctx).1 ctx,
          (visitList cs ctx).2) := by
  intro k t cs ctx h
  have hd := dispatch_default (Node.mk k t cs) (visitList cs ctx).1 ctx
    (by simpa [Node.kind] using h)
  rcases hv : visitList cs ctx with ⟨strs, w⟩
  rw [hv] at hd
  simp [visit, hv, hd]

/-- Witness for claim C6 at the undispatched kind `Text`. -/
theorem visit_dispatch_total_default_witness :
    visit (Node.mk SKind.Text "hi   x" []) ⟨⟨80, 2⟩, 0⟩ =
      (format_default (Node.mk SKind.Text "hi   x" [])
        (visitList [] ⟨⟨80, 2⟩, 0⟩).1 ⟨⟨80, 2⟩, 0⟩,
        (visitList [] ⟨⟨80, 2⟩, 0⟩).2) :=
  visit_dispatch_total_default SKind.Text "hi   x" [] ⟨⟨80, 2⟩, 0⟩ (by decide)

/-- Claim C7: the default formatter appends the node's raw text through
normalization, then each child's formatted string unmodified in order; the
normalization collapses every run of two or more spaces to exactly one space
and every run of three or more newlines to exactly two newlines (stated on
the normalization kernel `collapseChars` for a run in an arbitrary left
context that does not itself end the run's character). -/
theorem format_default_contract :
    (∀ (node : Node) (cs : List String) (ctx : Ctx),
        format_default node cs ctx = normalize node.text ++ concatMap id cs) ∧
    (∀ (p2 p1 : Option Char) (n : Nat) (rest : List Char),
        2 ≤ n → p1 ≠ some ' ' →
        collapseChars p2 p1 (List.replicate n ' ' ++ rest) =
          ' ' :: collapseChars p1 (some ' ') rest) ∧
    (∀ (p2 p1 : Option Char) (n : Nat) (rest : List Char),
        3 ≤ n → p1 ≠ some '\n' →
        collapseChars p2 p1 (List.replicate n '\n' ++ rest) =
          '\n' :: '\n' :: collapseChars (some '\n') (some '\n') rest) := by
  refine ⟨fun node cs ctx => ?_, fun p2 p1 n rest hn hp => ?_,
    fun p2 p1 n rest hn hp => ?_⟩
  · rw [format_default, rawFold_eq]
    simp [push_in]
  · exact collapseChars_space_run p2 p1 n rest (by omega) hp
  · exact collapseChars_newline_run p2 p1 n rest hn hp

/-- Witness for claim C7: concrete instances of all three components. -/
theorem format_default_contract_witness :
    format_default (Node.mk SKind.Text "a" []) ["b", "c"] ⟨⟨80, 2⟩, 0⟩ =
        normalize "a" ++ concatMap id ["b", "c"] ∧
    collapseChars none (some 'a') (List.replicate 2 ' ' ++ ['b']) =
        ' ' :: collapseChars (some 'a') (some ' ') ['b'] ∧
    collapseChars none (some 'a') (List.replicate 3 '\n' ++ ['b']) =
        '\n' :: '\n' :: collapseChars (some '\n') (some '\n') ['b'] :=
  ⟨format_default_contract.1 (Node.mk SKind.Text "a" []) ["b", "c"] ⟨⟨80, 2⟩, 0⟩,
   format_default_contract.2.1 none (some 'a') 2 ['b'] (by decide) (by decide),
   format_default_contract.2.2 none (some 'a') 3 ['b'] (by decide) (by decide)⟩

/-- Claim C8: the delimited-collection width comparison is inclusive at the
boundary; a single-line rendering whose longest line is exactly
`max_line_length` is kept on one line, not split. -/
theorem format_args_boundary_inclusive :
    ∀ (parent : Node) (children : List String) (ctx : Ctx),
      max_line_length (argsSingleGo (children.zip parent.children) "") =
        ctx.config.max_line_length →
      format_args parent children ctx =
        argsSingleGo (children.zip parent.children) "" := by
  intro parent children ctx h
  simp [format_args, h]

/-- Witness for claim C8: the collection `(abc, d)` rendered single-line is
exactly 6 characters with `max_line_length = 6` and stays on one line. -/
theorem format_args_boundary_inclusive_witness :
    format_args
        (Node.mk SKind.Args ""
          [Node.mk SKind.Ident "abc" [], Node.mk SKind.Comma "," [],
           Node.mk SKind.Ident "d" []])
        ["abc", ",", "d"] ⟨⟨6, 2⟩, 0⟩ =
      argsSingleGo
        ((["abc", ",", "d"]).zip
          (Node.mk SKind.Args ""
            [Node.mk SKind.Ident "abc" [], Node.mk SKind.Comma "," [],
             Node.mk SKind.Ident "d" []]).children) "" :=
  format_args_boundary_inclusive
    (Node.mk SKind.Args ""
      [Node.mk SKind.Ident "abc" [], Node.mk SKind.Comma "," [],
       Node.mk SKind.Ident "d" []])
    ["abc", ",", "d"] ⟨⟨6, 2⟩, 0⟩ (by rfl)

/-- Claim C9: when the tight rendering's longest line exactly equals
`max_line_length`, the binary-operator formatter treats it as overflowing
(the check at lib.rs line 97 is greater-or-equal): it emits the warning
diagnostic and returns the tight rendering. -/
theorem format_bin_left_assoc_at_limit :
    ∀ (parent : Node) (children : List String) (ctx : Ctx),
      max_line_length (format_bin_left_assoc_tight parent children ctx) =
        ctx.config.max_line_length →
      format_bin_left_assoc parent children ctx =
        (format_bin_left_assoc_tight parent children ctx, 1) := by
  intro parent children ctx h
  simp [format_bin_left_assoc, h, ge_iff_le]

/-- Witness for claim C9: `a + b` is exactly 5 characters with
`max_line_length = 5`; the formatter warns and keeps the tight rendering. -/
theorem format_bin_left_assoc_at_limit_witness :
    format_bin_left_assoc
        (Node.mk SKind.Binary ""
          [Node.mk SKind.Ident "aa" [], Node.mk SKind.Star "*" [],
           Node.mk SKind.Ident "b" []])
        ["aa", "*", "b"] ⟨⟨6, 2⟩, 0⟩ =
      (format_bin_left_assoc_tight
        (Node.mk SKind.Binary ""
          [Node.mk SKind.Ident "aa" [], Node.mk SKind.Star "*" [],
           Node.mk SKind.Ident "b" []])
        ["aa", "*", "b"] ⟨⟨6, 2⟩, 0⟩, 1) :=
  format_bin_left_assoc_at_limit
    (Node.mk SKind.Binary ""
      [Node.mk SKind.Ident "aa" [], Node.mk SKind.Star "*" [],
       Node.mk SKind.Ident "b" []])
    ["aa", "*", "b"] ⟨⟨6, 2⟩, 0⟩ (by rfl)

/-- Claim C10: the named/keyed formatter's output does not depend on the
formatted strings of Colon or Space children (nor on the context): runs
whose child-string lists agree outside Colon and Space positions produce
identical output. -/
theorem format_named_args_noninterference :
    ∀ (parent : Node) (cs1 cs2 : List String) (ctx1 ctx2 : Ctx),
      cs1.length = cs2.length →
      AgreeOffTrivia parent.children cs1 cs2 →
      format_named_args parent cs1 ctx1 = format_named_args parent cs2 ctx2 := by
  intro parent cs1 cs2 ctx1 ctx2 hlen hag
  simp only [format_named_args, namedGo_eq, String.empty_append]
  exact concatMap_named_congr parent.children cs1 cs2 hlen hag

/-- Witness for claim C10: replacing the Colon child's string by `";;;"` and
the Space child's string by `"???"` (and changing the width budget) leaves
the output unchanged. -/
theorem format_named_args_noninterference_witness :
    format_named_args
        (Node.mk SKind.Named ""
          [Node.mk SKind.Ident "a" [], Node.mk SKind.Colon ":" [],
           Node.mk SKind.Space " " [], Node.mk SKind.Int "1" []])
        ["a", ":", " ", "1"] ⟨⟨80, 2⟩, 0⟩ =
      format_named_args
        (Node.mk SKind.Named ""
          [Node.mk SKind.Ident "a" [], Node.mk SKind.Colon ":" [],
           Node.mk SKind.Space " " [], Node.mk SKind.Int "1" []])
        ["a", ";;;", "???", "1"] ⟨⟨10, 2⟩, 0⟩ :=
  format_named_args_noninterference _ _ _ _ _ (by decide)
    (by simp [AgreeOffTrivia, Node.kind])

end Typstfmt
